import Mathlib

/-!
Shallow embedding of the furniture-catalog backend
(`src/backend/src/services/product/*`, `src/backend/src/instances/product/productStore.ts`,
`src/backend/src/constants/product/productDefaults.ts`).

Modelling conventions:
* JS numbers are modelled as `ℚ` (prices, raw query numbers) or `Int`
  (millisecond timestamps); `string | null` as `Option String`.
* ISO-8601 date strings are modelled by their `getTime()` value (an `Int` of
  milliseconds): the code only ever compares or subtracts them via `getTime()`.
* `Array.prototype.sort(cmp)` is modelled as a merge sort driven by the boolean
  relation `cmp a b ≤ 0`; the engine's sort is stable and comparator-driven,
  and no claim depends on the order of elements the comparator cannot separate.
* Exceptions (`ServiceError`, the store's capacity `Error`) are modelled with
  `Except`/`Option`; each service operation returns its result together with
  the store state after the call.
-/

/-! ### Merge sort: the model of `Array.prototype.sort` with a comparator -/

/-- Fuel-indexed merge; the fuel only bounds the recursion depth so that the
definition is structurally recursive (and hence kernel-computable). With fuel
at least `xs.length + ys.length` it is the usual comparator merge. -/
def mergeF {α : Type} (le : α → α → Bool) : Nat → List α → List α → List α
  | _, [], ys => ys
  | _, xs, [] => xs
  | 0, xs, ys => xs ++ ys
  | fuel + 1, x :: xs, y :: ys =>
    if le x y then x :: mergeF le fuel xs (y :: ys)
    else y :: mergeF le fuel (x :: xs) ys

/-- Merge two lists, taking from the left list while `le` holds. -/
def merge {α : Type} (le : α → α → Bool) (xs ys : List α) : List α :=
  mergeF le (xs.length + ys.length) xs ys

/-- Split a list into two halves by alternating elements. -/
def splitList {α : Type} : List α → List α × List α
  | [] => ([], [])
  | [a] => ([a], [])
  | a :: b :: rest =>
    let p := splitList rest
    (a :: p.1, b :: p.2)

theorem splitList_fst_length_le {α : Type} :
    ∀ l : List α, (splitList l).1.length ≤ l.length := by
  intro l
  match l with
  | [] => simp [splitList]
  | [a] => simp [splitList]
  | a :: b :: rest =>
    have ih := splitList_fst_length_le rest
    simp only [splitList, List.length_cons]
    omega
termination_by l => l.length

theorem splitList_snd_length_le {α : Type} :
    ∀ l : List α, (splitList l).2.length ≤ l.length := by
  intro l
  match l with
  | [] => simp [splitList]
  | [a] => simp [splitList]
  | a :: b :: rest =>
    have ih := splitList_snd_length_le rest
    simp only [splitList, List.length_cons]
    omega
termination_by l => l.length

theorem splitList_length {α : Type} :
    ∀ l : List α, (splitList l).1.length + (splitList l).2.length = l.length := by
  intro l
  match l with
  | [] => simp [splitList]
  | [a] => simp [splitList]
  | a :: b :: rest =>
    have ih := splitList_length rest
    simp only [splitList, List.length_cons]
    omega
termination_by l => l.length

/-- Fuel-indexed merge sort; with fuel at least `l.length` this is the usual
top-down merge sort. -/
def mergeSortF {α : Type} (le : α → α → Bool) : Nat → List α → List α
  | _, [] => []
  | _, [a] => [a]
  | 0, l => l
  | fuel + 1, a :: b :: rest =>
    let p := splitList rest
    merge le (mergeSortF le fuel (a :: p.1)) (mergeSortF le fuel (b :: p.2))

/-- Comparator-driven merge sort; models `Array.prototype.sort(cmp)` with
`le a b = (cmp a b ≤ 0)`. -/
def mergeSort {α : Type} (le : α → α → Bool) (l : List α) : List α :=
  mergeSortF le l.length l

theorem length_mergeF {α : Type} (le : α → α → Bool) :
    ∀ (fuel : Nat) (xs ys : List α),
      (mergeF le fuel xs ys).length = xs.length + ys.length := by
  intro fuel
  induction fuel with
  | zero =>
    intro xs ys
    cases xs <;> cases ys <;> simp [mergeF]
    omega
  | succ fuel ih =>
    intro xs ys
    cases xs with
    | nil => simp [mergeF]
    | cons x xs =>
      cases ys with
      | nil => simp [mergeF]
      | cons y ys =>
        rw [mergeF]
        cases h : le x y
        · simp only [h, Bool.false_eq_true, if_false, List.length_cons, ih]
          omega
        · simp only [h, if_true, List.length_cons, ih]
          omega

theorem length_merge {α : Type} (le : α → α → Bool) (xs ys : List α) :
    (merge le xs ys).length = xs.length + ys.length :=
  length_mergeF le _ xs ys

theorem mem_mergeF {α : Type} (le : α → α → Bool) :
    ∀ (fuel : Nat) (xs ys : List α) (z : α),
      z ∈ mergeF le fuel xs ys ↔ z ∈ xs ∨ z ∈ ys := by
  intro fuel
  induction fuel with
  | zero =>
    intro xs ys z
    cases xs <;> cases ys <;> simp [mergeF]
    tauto
  | succ fuel ih =>
    intro xs ys z
    cases xs with
    | nil => simp [mergeF]
    | cons x xs =>
      cases ys with
      | nil => simp [mergeF]
      | cons y ys =>
        rw [mergeF]
        cases h : le x y
        · simp only [h, Bool.false_eq_true, if_false, List.mem_cons, ih]
          tauto
        · simp only [h, if_true, List.mem_cons, ih]
          tauto

theorem mem_merge {α : Type} (le : α → α → Bool) (xs ys : List α) (z : α) :
    z ∈ merge le xs ys ↔ z ∈ xs ∨ z ∈ ys :=
  mem_mergeF le _ xs ys z

theorem length_mergeSortF {α : Type} (le : α → α → Bool) :
    ∀ (fuel : Nat) (l : List α), l.length ≤ fuel →
      (mergeSortF le fuel l).length = l.length := by
  intro fuel
  induction fuel with
  | zero =>
    intro l hl
    have h0 : l = [] := List.eq_nil_of_length_eq_zero (by omega)
    subst h0
    simp [mergeSortF]
  | succ fuel ih =>
    intro l hl
    match l with
    | [] => simp [mergeSortF]
    | [a] => simp [mergeSortF]
    | a :: b :: rest =>
      have h1 := splitList_fst_length_le rest
      have h2 := splitList_snd_length_le rest
      have e := splitList_length rest
      simp only [List.length_cons] at hl
      rw [mergeSortF]
      rw [length_merge]
      rw [ih (a :: (splitList rest).1) (by simp only [List.length_cons]; omega)]
      rw [ih (b :: (splitList rest).2) (by simp only [List.length_cons]; omega)]
      simp only [List.length_cons]
      omega

theorem length_mergeSort {α : Type} (le : α → α → Bool) (l : List α) :
    (mergeSort le l).length = l.length :=
  length_mergeSortF le l.length l (le_refl _)

/-- If `le` is monotone with respect to a numeric rank (strictly smaller rank always
compares `le`, strictly larger rank never does), then `mergeF` of two rank-sorted
lists is rank-sorted, provided the fuel covers both lists. -/
theorem rank_mergeF {α : Type} (le : α → α → Bool) (rank : α → Nat)
    (h1 : ∀ a b, rank a < rank b → le a b = true)
    (h2 : ∀ a b, rank b < rank a → le a b = false) :
    ∀ (fuel : Nat) (xs ys : List α), xs.length + ys.length ≤ fuel →
      xs.Pairwise (fun a b => rank a ≤ rank b) →
      ys.Pairwise (fun a b => rank a ≤ rank b) →
      (mergeF le fuel xs ys).Pairwise (fun a b => rank a ≤ rank b) := by
  intro fuel
  induction fuel with
  | zero =>
    intro xs ys hl hx hy
    have hx0 : xs = [] := List.eq_nil_of_length_eq_zero (by omega)
    have hy0 : ys = [] := List.eq_nil_of_length_eq_zero (by omega)
    subst hx0
    subst hy0
    simp [mergeF]
  | succ fuel ih =>
    intro xs ys hl hx hy
    cases xs with
    | nil => simpa [mergeF] using hy
    | cons x xs =>
      cases ys with
      | nil => simpa [mergeF] using hx
      | cons y ys =>
        rw [mergeF]
        rw [List.pairwise_cons] at hx hy
        simp only [List.length_cons] at hl
        cases h : le x y
        · simp only [h, Bool.false_eq_true, if_false, List.pairwise_cons]
          refine ⟨?_, ih (x :: xs) ys (by simp only [List.length_cons]; omega)
            (List.pairwise_cons.mpr hx) hy.2⟩
          intro z hz
          have hyx : rank y ≤ rank x := by
            by_contra hc
            have := h1 x y (by omega)
            rw [this] at h
            exact Bool.noConfusion h
          rcases (mem_mergeF le fuel (x :: xs) ys z).mp hz with hzx | hzy
          · rcases List.mem_cons.mp hzx with rfl | hzxs
            · exact hyx
            · exact le_trans hyx (hx.1 z hzxs)
          · exact hy.1 z hzy
        · simp only [h, if_true, List.pairwise_cons]
          refine ⟨?_, ih xs (y :: ys) (by simp only [List.length_cons]; omega)
            hx.2 (List.pairwise_cons.mpr hy)⟩
          intro z hz
          rcases (mem_mergeF le fuel xs (y :: ys) z).mp hz with hzx | hzy
          · exact hx.1 z hzx
          · have hxy : rank x ≤ rank y := by
              by_contra hc
              have := h2 x y (by omega)
              rw [this] at h
              exact Bool.noConfusion h
            rcases List.mem_cons.mp hzy with rfl | hzys
            · exact hxy
            · exact le_trans hxy (hy.1 z hzys)

theorem rank_merge {α : Type} (le : α → α → Bool) (rank : α → Nat)
    (h1 : ∀ a b, rank a < rank b → le a b = true)
    (h2 : ∀ a b, rank b < rank a → le a b = false)
    (xs ys : List α)
    (hx : xs.Pairwise (fun a b => rank a ≤ rank b))
    (hy : ys.Pairwise (fun a b => rank a ≤ rank b)) :
    (merge le xs ys).Pairwise (fun a b => rank a ≤ rank b) :=
  rank_mergeF le rank h1 h2 _ xs ys (le_refl _) hx hy

theorem rank_mergeSortF {α : Type} (le : α → α → Bool) (rank : α → Nat)
    (h1 : ∀ a b, rank a < rank b → le a b = true)
    (h2 : ∀ a b, rank b < rank a → le a b = false) :
    ∀ (fuel : Nat) (l : List α), l.length ≤ fuel →
      (mergeSortF le fuel l).Pairwise (fun a b => rank a ≤ rank b) := by
  intro fuel
  induction fuel with
  | zero =>
    intro l hl
    have h0 : l = [] := List.eq_nil_of_length_eq_zero (by omega)
    subst h0
    simp [mergeSortF]
  | succ fuel ih =>
    intro l hl
    match l with
    | [] => simp [mergeSortF]
    | [a] => simp [mergeSortF]
    | a :: b :: rest =>
      have hs1 := splitList_fst_length_le rest
      have hs2 := splitList_snd_length_le rest
      simp only [List.length_cons] at hl
      rw [mergeSortF]
      exact rank_merge le rank h1 h2 _ _
        (ih (a :: (splitList rest).1) (by simp only [List.length_cons]; omega))
        (ih (b :: (splitList rest).2) (by simp only [List.length_cons]; omega))

/-- `mergeSort` output is sorted by any rank the comparator is monotone for. -/
theorem rank_mergeSort {α : Type} (le : α → α → Bool) (rank : α → Nat)
    (h1 : ∀ a b, rank a < rank b → le a b = true)
    (h2 : ∀ a b, rank b < rank a → le a b = false)
    (l : List α) : (mergeSort le l).Pairwise (fun a b => rank a ≤ rank b) :=
  rank_mergeSortF le rank h1 h2 l.length l (le_refl _)

/-! ### Data model (`productTypes.ts`, `productStore.ts`) -/

/-- `ProductRecord` / `ProductEntity` from the source (the two interfaces list the
same fields). Timestamps carry the `getTime()` value of the ISO string. -/
structure ProductRecord where
  id : Nat
  name : String
  description : Option String
  mainImage : String
  images : List String
  price : Option ℚ
  category : String
  shortDescription : Option String
  dimensions : Option String
  featured : Bool
  isNew : Bool
  onSale : Bool
  available : Bool
  dateCreated : Int
  dateModified : Int
deriving DecidableEq

/-- `ProductListItem`: the list-view projection. -/
structure ProductListItem where
  id : Nat
  name : String
  mainImage : String
  price : Option ℚ
  category : String
  featured : Bool
  isNew : Bool
  onSale : Bool
  available : Bool
deriving DecidableEq

/-- The `pagination` object of `ProductListResponse`. -/
structure PaginationMeta where
  page : Nat
  pageSize : Nat
  total : Nat
  totalPages : Nat
  hasNext : Bool
  hasPrevious : Bool
deriving DecidableEq

/-- `ProductListResponse`. -/
structure ProductListResponse where
  items : List ProductListItem
  pagination : PaginationMeta
deriving DecidableEq

/-- The two `ServiceError` codes thrown by the service plus the plain `Error`
thrown by `ProductStore.add` at capacity. -/
inductive ServiceErr where
  | validationError
  | notFound
  | capacity
deriving DecidableEq

/-! ### Constants (`productDefaults.ts`) -/

def MAX_RECORDS : Nat := 10000

def DEFAULT_AVAILABLE : Bool := true
def DEFAULT_FEATURED : Bool := false
def DEFAULT_ON_SALE : Bool := false

def PRODUCT_CATEGORIES : List String :=
  ["sala de estar", "quarto", "cozinha", "escritório", "banheiro", "área externa"]

def NAME_MAX_LENGTH : Nat := 60
def DESCRIPTION_MAX_LENGTH : Nat := 500
def SHORT_DESCRIPTION_MAX_LENGTH : Nat := 150
def DIMENSIONS_MAX_LENGTH : Nat := 50

/-! ### Validation (`productValidation.ts`, zod schemas) -/

/-- `listLeads pat l` is true when `pat` is an initial segment of `l`. -/
def listLeads : List Char → List Char → Bool
  | [], _ => true
  | _ :: _, [] => false
  | p :: ps, c :: cs => p == c && listLeads ps cs

/-- Models `z.string().url()` (WHATWG URL parseability). Abstracted to a scheme
check; no claim in this development depends on which strings count as URLs. -/
def isValidUrl (s : String) : Bool :=
  listLeads "http://".data s.data || listLeads "https://".data s.data

/-- The five `sort` values of `listQuerySchema`. -/
inductive SortOrder where
  | newest
  | nameAsc
  | nameDesc
  | priceAsc
  | priceDesc
deriving DecidableEq

/-- Raw creation payload: the fields `createSchema` reads. Optional keys are
`Option`; `nullable` values are `Option` as well (`none` = JSON `null`). -/
structure RawCreate where
  name : String
  description : Option String
  mainImage : String
  images : Option (List String)
  price : Option ℚ
  category : String
  shortDescription : Option String
  dimensions : Option String
  featured : Option Bool
  onSale : Option Bool
  available : Option Bool
deriving DecidableEq

/-- Parsed creation payload (zod output: optional fields defaulted). -/
structure CreateData where
  name : String
  description : Option String
  mainImage : String
  images : List String
  price : Option ℚ
  category : String
  shortDescription : Option String
  dimensions : Option String
  featured : Bool
  onSale : Bool
  available : Bool
deriving DecidableEq

/-- `createSchema.safeParse`: `none` models a failed parse (VALIDATION_ERROR). -/
def parseCreate (b : RawCreate) : Option CreateData :=
  if 1 ≤ b.name.length ∧ b.name.length ≤ NAME_MAX_LENGTH
      ∧ (∀ d ∈ b.description, d.length ≤ DESCRIPTION_MAX_LENGTH)
      ∧ isValidUrl b.mainImage = true
      ∧ (∀ l ∈ b.images, ∀ u ∈ l, isValidUrl u = true)
      ∧ (∀ p ∈ b.price, 0 < p)
      ∧ b.category ∈ PRODUCT_CATEGORIES
      ∧ (∀ d ∈ b.shortDescription, d.length ≤ SHORT_DESCRIPTION_MAX_LENGTH)
      ∧ (∀ d ∈ b.dimensions, d.length ≤ DIMENSIONS_MAX_LENGTH) then
    some
      { name := b.name
        description := b.description
        mainImage := b.mainImage
        images := b.images.getD []           -- `.optional().default([])`
        price := b.price
        category := b.category
        shortDescription := b.shortDescription
        dimensions := b.dimensions
        featured := b.featured.getD DEFAULT_FEATURED    -- `.optional().default(false)`
        onSale := b.onSale.getD DEFAULT_ON_SALE         -- `.optional().default(false)`
        available := b.available.getD DEFAULT_AVAILABLE -- `.optional().default(true)`
      }
  else none

/-- Raw update payload: same fields, but `featured`/`onSale`/`available` are
required (`z.boolean()`, not optional) in `updateSchema`. -/
structure RawUpdate where
  name : String
  description : Option String
  mainImage : String
  images : Option (List String)
  price : Option ℚ
  category : String
  shortDescription : Option String
  dimensions : Option String
  featured : Bool
  onSale : Bool
  available : Bool
deriving DecidableEq

/-- Parsed update payload (zod output of `updateSchema`). -/
structure UpdateData where
  name : String
  description : Option String
  mainImage : String
  images : List String
  price : Option ℚ
  category : String
  shortDescription : Option String
  dimensions : Option String
  featured : Bool
  onSale : Bool
  available : Bool
deriving DecidableEq

/-- `updateSchema.safeParse`. Note `images := b.images.getD []`: `updateSchema`
declares `images: z.array(z.string().url()).optional().default([])`, so an
omitted `images` key parses to the empty list. -/
def parseUpdate (b : RawUpdate) : Option UpdateData :=
  if 1 ≤ b.name.length ∧ b.name.length ≤ NAME_MAX_LENGTH
      ∧ (∀ d ∈ b.description, d.length ≤ DESCRIPTION_MAX_LENGTH)
      ∧ isValidUrl b.mainImage = true
      ∧ (∀ l ∈ b.images, ∀ u ∈ l, isValidUrl u = true)
      ∧ (∀ p ∈ b.price, 0 < p)
      ∧ b.category ∈ PRODUCT_CATEGORIES
      ∧ (∀ d ∈ b.shortDescription, d.length ≤ SHORT_DESCRIPTION_MAX_LENGTH)
      ∧ (∀ d ∈ b.dimensions, d.length ≤ DIMENSIONS_MAX_LENGTH) then
    some
      { name := b.name
        description := b.description
        mainImage := b.mainImage
        images := b.images.getD []
        price := b.price
        category := b.category
        shortDescription := b.shortDescription
        dimensions := b.dimensions
        featured := b.featured
        onSale := b.onSale
        available := b.available }
  else none

/-- Raw `params` object; `id` is whatever number `z.coerce.number()` produced. -/
structure RawParams where
  id : ℚ
deriving DecidableEq

/-- `paramsSchema.safeParse`: `id` must be a positive integer
(`z.coerce.number().int().positive()`). -/
def parseParams (p : RawParams) : Option Nat :=
  if p.id.den = 1 ∧ 0 < p.id.num then some p.id.num.toNat else none

/-- Raw list-query parameters. `page`/`pageSize` carry the number produced by
`z.coerce.number()`; `available`/`featured` arrive as strings on the wire. -/
structure RawListQuery where
  category : Option String
  sort : Option String
  page : Option ℚ
  pageSize : Option ℚ
  available : Option String
  featured : Option String
deriving DecidableEq

/-- Parsed list query (zod output of `listQuerySchema`). -/
structure ListFilters where
  category : Option String
  sort : Option SortOrder
  page : Nat
  pageSize : Nat
  available : Option Bool
  featured : Option Bool
deriving DecidableEq

/-- `category` field of `listQuerySchema`: optional enum. -/
def parseCategoryField : Option String → Option (Option String)
  | none => some none
  | some c => if c ∈ PRODUCT_CATEGORIES then some (some c) else none

/-- `sort` field of `listQuerySchema`: optional enum of the five sort values. -/
def parseSortField : Option String → Option (Option SortOrder)
  | none => some none
  | some t =>
    if t = "newest" then some (some .newest)
    else if t = "name-asc" then some (some .nameAsc)
    else if t = "name-desc" then some (some .nameDesc)
    else if t = "price-asc" then some (some .priceAsc)
    else if t = "price-desc" then some (some .priceDesc)
    else none

/-- `page` field: `z.coerce.number().int().positive().optional().default(1)`. -/
def parsePageField : Option ℚ → Option Nat
  | none => some 1
  | some p => if p.den = 1 ∧ 0 < p.num then some p.num.toNat else none

/-- `pageSize` field: integer restricted by `.refine` to {12, 24, 36, 48},
optional with default 12. -/
def parsePageSizeField : Option ℚ → Option Nat
  | none => some 12
  | some z =>
    if z.den = 1 ∧ z.num ∈ ([12, 24, 36, 48] : List Int) then some z.num.toNat
    else none

/-- `listQuerySchema.safeParse`. The `available`/`featured` strings are
transformed to `val === 'true'` without further validation. -/
def parseListQuery (q : RawListQuery) : Option ListFilters := do
  let cat ← parseCategoryField q.category
  let srt ← parseSortField q.sort
  let pg ← parsePageField q.page
  let ps ← parsePageSizeField q.pageSize
  some
    { category := cat
      sort := srt
      page := pg
      pageSize := ps
      available := q.available.map (fun v => v == "true")
      featured := q.featured.map (fun v => v == "true") }

/-! ### Product store (`productStore.ts`) -/

/-- The `ProductStore` singleton: a `Map<number, ProductRecord>` (modelled as an
insertion-ordered list of records, each under its `id`) and the id counter. -/
structure ProductStore where
  records : List ProductRecord
  currentId : Nat
deriving DecidableEq

/-- `Map.set` on a map keyed by `id`: replace in place when the key exists,
append otherwise (JS `Map` preserves insertion order). -/
def mapSet (rs : List ProductRecord) (r : ProductRecord) : List ProductRecord :=
  if rs.any (fun x => x.id == r.id) then
    rs.map (fun x => if x.id == r.id then r else x)
  else rs ++ [r]

/-- `getNextId()`: increments the counter and returns it. -/
def ProductStore.getNextId (s : ProductStore) : Nat × ProductStore :=
  (s.currentId + 1, { s with currentId := s.currentId + 1 })

/-- `getAll()`: `Array.from(this.records.values())`. -/
def ProductStore.getAll (s : ProductStore) : List ProductRecord :=
  s.records

/-- `getById(id)`: `this.records.get(id)`. -/
def ProductStore.getById (s : ProductStore) (id : Nat) : Option ProductRecord :=
  s.records.find? (fun x => x.id == id)

/-- `add(record)`: throws (`none`) when the store holds `MAX_RECORDS` or more,
otherwise `Map.set`s the record. -/
def ProductStore.add (s : ProductStore) (r : ProductRecord) : Option ProductStore :=
  if MAX_RECORDS ≤ s.records.length then none
  else some { s with records := mapSet s.records r }

/-- The `Partial<ProductRecord>` that `productUpdate` passes to
`ProductStore.update` (every field except `id` and `dateCreated`). -/
structure UpdateFields where
  name : String
  description : Option String
  mainImage : String
  images : List String
  price : Option ℚ
  category : String
  shortDescription : Option String
  dimensions : Option String
  featured : Bool
  isNew : Bool
  onSale : Bool
  available : Bool
  dateModified : Int
deriving DecidableEq

/-- `{ ...existing, ...data }`: shallow merge, `id` and `dateCreated` retained. -/
def applyUpdate (existing : ProductRecord) (d : UpdateFields) : ProductRecord :=
  { existing with
    name := d.name
    description := d.description
    mainImage := d.mainImage
    images := d.images
    price := d.price
    category := d.category
    shortDescription := d.shortDescription
    dimensions := d.dimensions
    featured := d.featured
    isNew := d.isNew
    onSale := d.onSale
    available := d.available
    dateModified := d.dateModified }

/-- `update(id, data)`: merge onto the existing record, `undefined` (`none`)
when the id is absent. -/
def ProductStore.update (s : ProductStore) (id : Nat) (d : UpdateFields) :
    Option (ProductRecord × ProductStore) :=
  match s.getById id with
  | none => none
  | some existing =>
    let u := applyUpdate existing d
    some (u, { s with records := mapSet s.records u })

/-- `delete(id)`: removes the entry, returns whether it was present. -/
def ProductStore.deleteById (s : ProductStore) (id : Nat) : Bool × ProductStore :=
  (s.records.any (fun x => x.id == id),
   { s with records := s.records.filter (fun x => !(x.id == id)) })

/-- `exists(id)`. -/
def ProductStore.existsId (s : ProductStore) (id : Nat) : Bool :=
  s.records.any (fun x => x.id == id)

/-- `count()`. -/
def ProductStore.count (s : ProductStore) : Nat :=
  s.records.length

/-- `clear()`: empties the map and resets the counter to zero. -/
def ProductStore.clear (_s : ProductStore) : ProductStore :=
  { records := [], currentId := 0 }

/-! ### Catalog query engine (`productService.ts`) -/

/-- Abstraction of `String.prototype.localeCompare`, the locale-aware string
comparison used by the `name-asc`/`name-desc` sorts; no claim depends on the
particular order it induces on strings. -/
def localeCompare (a b : String) : ℚ :=
  match compare a b with
  | .lt => -1
  | .eq => 0
  | .gt => 1

/-- The comparator passed to `products.sort` in `productList`: featured first,
then the selected secondary sort. -/
def cmpProducts (sortOrder : SortOrder) (a b : ProductRecord) : ℚ :=
  if a.featured && !b.featured then -1
  else if !a.featured && b.featured then 1
  else
    match sortOrder with
    | .newest => ((b.dateCreated - a.dateCreated : Int) : ℚ)
    | .nameAsc => localeCompare a.name b.name
    | .nameDesc => localeCompare b.name a.name
    | .priceAsc =>
      match a.price, b.price with
      | none, _ => 1
      | some _, none => -1
      | some x, some y => x - y
    | .priceDesc =>
      match a.price, b.price with
      | none, _ => 1
      | some _, none => -1
      | some x, some y => y - x

/-- Boolean ordering derived from the comparator (`cmp a b ≤ 0` keeps `a` first). -/
def productLe (sortOrder : SortOrder) (a b : ProductRecord) : Bool :=
  cmpProducts sortOrder a b ≤ 0

/-- The three filter steps of `productList`, in source order
(category, then available, then featured). -/
def applyFilters (f : ListFilters) (ps : List ProductRecord) : List ProductRecord :=
  let ps1 :=
    match f.category with
    | none => ps
    | some c => ps.filter (fun p => p.category == c)
  let ps2 :=
    match f.available with
    | none => ps1
    | some b => ps1.filter (fun p => p.available == b)
  match f.featured with
  | none => ps2
  | some b => ps2.filter (fun p => p.featured == b)

/-- JS `x || d` for a non-negative integer `x` (`0` is falsy). After
validation `page` and `pageSize` are positive, so this is the identity there. -/
def jsOr (x d : Nat) : Nat :=
  if x = 0 then d else x

/-- `Math.ceil(total / pageSize)` for naturals (`pageSize > 0`). -/
def ceilDiv (total pageSize : Nat) : Nat :=
  (total + pageSize - 1) / pageSize

/-- List-view projection of a record. -/
def toListItem (p : ProductRecord) : ProductListItem :=
  { id := p.id
    name := p.name
    mainImage := p.mainImage
    price := p.price
    category := p.category
    featured := p.featured
    isNew := p.isNew
    onSale := p.onSale
    available := p.available }

/-- `productList(query)`: validate, filter, sort, paginate, project. Returns the
result together with the store state after the call. -/
def productList (q : RawListQuery) (s : ProductStore) :
    Except ServiceErr ProductListResponse × ProductStore :=
  match parseListQuery q with
  | none => (.error .validationError, s)
  | some f =>
    let filtered := applyFilters f s.getAll
    let sortOrder := f.sort.getD .newest        -- `filters.sort || 'newest'`
    let sorted := mergeSort (productLe sortOrder) filtered
    let total := sorted.length
    let page := jsOr f.page 1                   -- `filters.page || 1`
    let pageSize := jsOr f.pageSize 12          -- `filters.pageSize || 12`
    let totalPages := ceilDiv total pageSize
    let offset := (page - 1) * pageSize
    let paginated := (sorted.drop offset).take pageSize  -- `slice(offset, offset+pageSize)`
    let items := paginated.map toListItem
    (.ok
      { items := items
        pagination :=
          { page := page
            pageSize := pageSize
            total := total
            totalPages := totalPages
            hasNext := decide (page < totalPages)
            hasPrevious := decide (1 < page) } }, s)

/-- `productGet(params)`. -/
def productGet (params : RawParams) (s : ProductStore) :
    Except ServiceErr ProductRecord × ProductStore :=
  match parseParams params with
  | none => (.error .validationError, s)
  | some id =>
    match s.getById id with
    | none => (.error .notFound, s)
    | some p => (.ok p, s)

/-- `productCreate(body)` at time `now`. `getNextId` runs before `add`, so a
capacity throw from `add` propagates with the counter already advanced. The
`?? PRODUCT_DEFAULTS` fallbacks in the source are identities because the zod
schema already applied the same defaults; `parseCreate` models the defaulted
output. `isNew` is set to `true` unconditionally. -/
def productCreate (now : Int) (body : RawCreate) (s : ProductStore) :
    Except ServiceErr ProductRecord × ProductStore :=
  match parseCreate body with
  | none => (.error .validationError, s)
  | some p =>
    let r := s.getNextId
    let newProduct : ProductRecord :=
      { id := r.1
        name := p.name
        description := p.description
        mainImage := p.mainImage
        images := p.images
        price := p.price
        category := p.category
        shortDescription := p.shortDescription
        dimensions := p.dimensions
        featured := p.featured
        isNew := true
        onSale := p.onSale
        available := p.available
        dateCreated := now
        dateModified := now }
    match r.2.add newProduct with
    | none => (.error .capacity, r.2)
    | some s2 => (.ok newProduct, s2)

/-- Milliseconds per day (`1000 * 60 * 60 * 24`). -/
def msPerDay : Int := 86400000

/-- JS `a || b` where `a` is an array: every array is truthy (including `[]`),
so the expression always evaluates to `a`. Models
`updateData.images || existing.images` in `productUpdate`. -/
def jsArrayOr (a _fallback : List String) : List String := a

/-- `productUpdate(params, body)` at time `now`. `isNew` is recomputed from the
existing record's `dateCreated`:
`Math.floor((now - created) / 86400000) <= 30` (`Math.floor` on the exact
quotient is floor division, `Int.fdiv`). -/
def productUpdate (now : Int) (params : RawParams) (body : RawUpdate)
    (s : ProductStore) : Except ServiceErr ProductRecord × ProductStore :=
  match parseParams params with
  | none => (.error .validationError, s)
  | some id =>
    match parseUpdate body with
    | none => (.error .validationError, s)
    | some u =>
      match s.getById id with
      | none => (.error .notFound, s)
      | some existing =>
        let daysSinceCreation := (now - existing.dateCreated).fdiv msPerDay
        let isNew := decide (daysSinceCreation ≤ 30)
        let d : UpdateFields :=
          { name := u.name
            description := u.description
            mainImage := u.mainImage
            images := jsArrayOr u.images existing.images
            price := u.price
            category := u.category
            shortDescription := u.shortDescription
            dimensions := u.dimensions
            featured := u.featured
            isNew := isNew
            onSale := u.onSale
            available := u.available
            dateModified := now }
        match s.update id d with
        | none => (.error .notFound, s)   -- unreachable: `getById` just succeeded
        | some (updated, s2) => (.ok updated, s2)

/-- `productDelete(params)`. -/
def productDelete (params : RawParams) (s : ProductStore) :
    Except ServiceErr String × ProductStore :=
  match parseParams params with
  | none => (.error .validationError, s)
  | some id =>
    if s.existsId id then
      ((.ok "Product deleted successfully"), (s.deleteById id).2)
    else (.error .notFound, s)

/-! ### Operation sequences (for the identifier-monotonicity invariant) -/

/-- One call on the service/repository boundary. `clear` is the store's
administrative reset; every other constructor is a service operation. -/
inductive Op where
  | create (now : Int) (body : RawCreate)
  | update (now : Int) (params : RawParams) (body : RawUpdate)
  | get (params : RawParams)
  | del (params : RawParams)
  | list (q : RawListQuery)
  | clear
deriving DecidableEq

/-- Apply one operation; also return the identifiers `getNextId` handed out
during the call (only a `create` that passes validation calls `getNextId`,
and it returns `currentId + 1`). -/
def applyOp (op : Op) (s : ProductStore) : ProductStore × List Nat :=
  match op with
  | .create now body =>
    ((productCreate now body s).2,
     if (parseCreate body).isSome then [s.currentId + 1] else [])
  | .update now params body => ((productUpdate now params body s).2, [])
  | .get params => ((productGet params s).2, [])
  | .del params => ((productDelete params s).2, [])
  | .list q => ((productList q s).2, [])
  | .clear => (s.clear, [])

/-- Run a sequence of operations, collecting all identifiers returned by
`getNextId` in call order. -/
def runOps : List Op → ProductStore → ProductStore × List Nat
  | [], s => (s, [])
  | op :: ops, s =>
    let r := applyOp op s
    let rest := runOps ops r.1
    (rest.1, r.2 ++ rest.2)

theorem productUpdate_currentId (now : Int) (params : RawParams) (body : RawUpdate)
    (s : ProductStore) : (productUpdate now params body s).2.currentId = s.currentId := by
  unfold productUpdate
  cases parseParams params with
  | none => rfl
  | some id =>
    cases parseUpdate body with
    | none => rfl
    | some u =>
      cases hg : s.getById id with
      | none => simp [hg]
      | some existing => simp [hg, ProductStore.update]

theorem productDelete_currentId (params : RawParams) (s : ProductStore) :
    (productDelete params s).2.currentId = s.currentId := by
  unfold productDelete
  cases parseParams params with
  | none => rfl
  | some id =>
    cases h : s.existsId id with
    | false => simp [h]
    | true => simp [h, ProductStore.deleteById]

theorem productCreate_currentId (now : Int) (body : RawCreate) (s : ProductStore) :
    (productCreate now body s).2.currentId =
      if (parseCreate body).isSome then s.currentId + 1 else s.currentId := by
  unfold productCreate
  cases parseCreate body with
  | none => rfl
  | some p =>
    simp only [Option.isSome_some, if_true]
    cases h : (ProductStore.getNextId s).2.add _ with
    | none => rfl
    | some s2 =>
      simp only []
      unfold ProductStore.add at h
      by_cases hc : MAX_RECORDS ≤ (ProductStore.getNextId s).2.records.length
      · rw [if_pos hc] at h; exact absurd h (by simp)
      · rw [if_neg hc] at h
        cases h
        rfl

theorem applyOp_currentId (op : Op) (s : ProductStore) (h : op ≠ .clear) :
    s.currentId ≤ (applyOp op s).1.currentId ∧
      ∀ i ∈ (applyOp op s).2, s.currentId < i ∧ i ≤ (applyOp op s).1.currentId := by
  cases op with
  | create now body =>
    simp only [applyOp, productCreate_currentId]
    cases hp : (parseCreate body).isSome with
    | false => simp
    | true => simp
  | update now params body => simp [applyOp, productUpdate_currentId]
  | get params =>
    simp only [applyOp, productGet]
    cases parseParams params with
    | none => simp
    | some id => cases hg : s.getById id <;> simp [hg]
  | del params => simp [applyOp, productDelete_currentId]
  | list q => simp [applyOp, productList]; cases parseListQuery q <;> simp
  | clear => exact absurd rfl h

theorem runOps_currentId (ops : List Op) (h : Op.clear ∉ ops) (s : ProductStore) :
    s.currentId ≤ (runOps ops s).1.currentId ∧
      ∀ i ∈ (runOps ops s).2, s.currentId < i ∧ i ≤ (runOps ops s).1.currentId := by
  induction ops generalizing s with
  | nil => simp [runOps]
  | cons op ops ih =>
    have hop : op ≠ .clear := fun e => h (e ▸ List.mem_cons_self op ops)
    have hops : Op.clear ∉ ops := fun m => h (List.mem_cons_of_mem _ m)
    have ha := applyOp_currentId op s hop
    have hr := ih hops (applyOp op s).1
    simp only [runOps, List.mem_append]
    refine ⟨le_trans ha.1 hr.1, ?_⟩
    intro i hi
    rcases hi with hi | hi
    · have hb := ha.2 i hi
      exact ⟨hb.1, le_trans hb.2 hr.1⟩
    · have hb := hr.2 i hi
      exact ⟨lt_of_le_of_lt ha.1 hb.1, hb.2⟩

/-! ### Concrete fixtures used by witnesses and counterexamples -/

/-- The empty repository (process start / after `clear()`). -/
def emptyStore : ProductStore := { records := [], currentId := 0 }

/-- A creation payload that passes `createSchema`. -/
def sampleBody : RawCreate :=
  { name := "Sofa"
    description := none
    mainImage := "https://example.com/sofa.jpg"
    images := none
    price := some 10
    category := "quarto"
    shortDescription := none
    dimensions := none
    featured := none
    onSale := none
    available := none }

/-- `create`, then `delete` of the created id, then `create` again. -/
def opsCreateDeleteCreate : List Op :=
  [.create 0 sampleBody, .del { id := 1 }, .create 0 sampleBody]

/-- C6: For every sequence of repository operations not containing `clear`,
every identifier returned by `getNextId` is strictly greater than every
identifier it previously returned (so identifiers are never reused, even after
deletion). -/
theorem claim6_ids_strictly_increasing (ops : List Op) (s : ProductStore)
    (h : Op.clear ∉ ops) :
    ((runOps ops s).2).Pairwise (fun i j => i < j) := by
  induction ops generalizing s with
  | nil => simp [runOps]
  | cons op ops ih =>
    have hop : op ≠ .clear := fun e => h (e ▸ List.mem_cons_self op ops)
    have hops : Op.clear ∉ ops := fun m => h (List.mem_cons_of_mem _ m)
    simp only [runOps]
    apply List.pairwise_append.mpr
    refine ⟨?_, ih _ hops, ?_⟩
    · cases op with
      | create now body => cases hb : (parseCreate body).isSome <;> simp [applyOp, hb]
      | update now params body => simp [applyOp]
      | get params => simp [applyOp]
      | del params => simp [applyOp]
      | list q => simp [applyOp]
      | clear => exact absurd rfl hop
    · intro a ha b hb
      have h1 := (applyOp_currentId op s hop).2 a ha
      have h2 := (runOps_currentId ops hops (applyOp op s).1).2 b hb
      omega

/-- Witness for C6: create, delete, create from the empty store hands out the
identifiers 1 and 2, strictly increasing; the second create does not reuse 1. -/
theorem claim6_witness :
    Op.clear ∉ opsCreateDeleteCreate ∧
      ((runOps opsCreateDeleteCreate emptyStore).2).Pairwise (fun i j => i < j) ∧
      (runOps opsCreateDeleteCreate emptyStore).2 = [1, 2] :=
  ⟨by decide,
   claim6_ids_strictly_increasing opsCreateDeleteCreate emptyStore (by decide),
   by decide⟩

/-! ### Frame / atomicity -/

theorem productList_snd (q : RawListQuery) (s : ProductStore) :
    (productList q s).2 = s := by
  unfold productList
  cases parseListQuery q <;> rfl

theorem productGet_snd (params : RawParams) (s : ProductStore) :
    (productGet params s).2 = s := by
  unfold productGet
  cases parseParams params with
  | none => rfl
  | some id => cases hg : s.getById id <;> simp [hg]

/-- C10: the list operation never modifies the repository: the stored records
and the identifier counter are identical before and after the call, whether it
succeeds or fails with VALIDATION_ERROR. -/
theorem claim10_list_never_modifies_store (q : RawListQuery) (s : ProductStore) :
    (productList q s).2 = s :=
  productList_snd q s

/-- A valid update payload. -/
def sampleUpd : RawUpdate :=
  { name := "Sofa novo"
    description := none
    mainImage := "https://example.com/sofa2.jpg"
    images := none
    price := some 20
    category := "quarto"
    shortDescription := none
    dimensions := none
    featured := false
    onSale := false
    available := true }

/-- A stored record used to build concrete repository states. -/
def baseRec : ProductRecord :=
  { id := 1
    name := "Mesa"
    description := none
    mainImage := "https://example.com/mesa.jpg"
    images := []
    price := some 5
    category := "cozinha"
    shortDescription := none
    dimensions := none
    featured := false
    isNew := true
    onSale := false
    available := true
    dateCreated := 0
    dateModified := 0 }

/-- A repository filled to the capacity bound `MAX_RECORDS`. -/
def fullStore : ProductStore :=
  { records := (List.range MAX_RECORDS).map (fun i => { baseRec with id := i + 1 })
    currentId := MAX_RECORDS }

theorem productCreate_capacity (now : Int) (body : RawCreate) (s : ProductStore)
    (hp : (parseCreate body).isSome = true) (hlen : MAX_RECORDS ≤ s.records.length) :
    (productCreate now body s).1 = .error .capacity ∧
      (productCreate now body s).2 = { s with currentId := s.currentId + 1 } := by
  obtain ⟨p, hp'⟩ := Option.isSome_iff_exists.mp hp
  simp only [productCreate, hp', ProductStore.getNextId, ProductStore.add]
  rw [if_pos hlen]
  exact ⟨rfl, rfl⟩

/-- C7 (counterexample to the claim as stated): with the repository at the
capacity bound and a valid payload, `productCreate` fails with the capacity
fault but the identifier counter has changed: `getNextId` runs before `add`,
so the failed call does not leave the state unchanged. -/
theorem claim7_counterexample :
    (productCreate 0 sampleBody fullStore).1 = .error .capacity ∧
      (productCreate 0 sampleBody fullStore).2.currentId ≠ fullStore.currentId := by
  have hlen : MAX_RECORDS ≤ fullStore.records.length := by
    simp [fullStore, List.length_map, List.length_range]
  have h := productCreate_capacity 0 sampleBody fullStore (by decide) hlen
  refine ⟨h.1, ?_⟩
  rw [h.2]
  simp

/-- C7 (amended): every failure with VALIDATION_ERROR or NOT_FOUND leaves the
repository state (records and identifier counter) unchanged; a create that
fails on the capacity bound leaves the records unchanged but increments the
identifier counter by one (`getNextId` runs before the failing `add`). -/
theorem claim7_atomicity (now : Int) (params : RawParams) (body : RawCreate)
    (ubody : RawUpdate) (q : RawListQuery) (s : ProductStore) :
    (∀ e, (productList q s).1 = .error e → (productList q s).2 = s) ∧
      (∀ e, (productGet params s).1 = .error e → (productGet params s).2 = s) ∧
      (∀ e, (productDelete params s).1 = .error e → (productDelete params s).2 = s) ∧
      (∀ e, (productUpdate now params ubody s).1 = .error e →
        (productUpdate now params ubody s).2 = s) ∧
      ((productCreate now body s).1 = .error .validationError →
        (productCreate now body s).2 = s) ∧
      ((productCreate now body s).1 = .error .capacity →
        (productCreate now body s).2.records = s.records ∧
          (productCreate now body s).2.currentId = s.currentId + 1) := by
  refine ⟨fun e _ => productList_snd q s, fun e _ => productGet_snd params s, ?_, ?_, ?_, ?_⟩
  · intro e he
    unfold productDelete at he ⊢
    cases hpp : parseParams params with
    | none => simp [hpp]
    | some id =>
      simp only [hpp] at he ⊢
      cases hx : s.existsId id with
      | false => simp [hx]
      | true => simp [hx] at he
  · intro e he
    unfold productUpdate at he ⊢
    cases hpp : parseParams params with
    | none => simp [hpp]
    | some id =>
      simp only [hpp] at he ⊢
      cases hpu : parseUpdate ubody with
      | none => simp [hpu]
      | some u =>
        simp only [hpu] at he ⊢
        cases hg : s.getById id with
        | none => simp [hg]
        | some existing =>
          simp only [hg] at he ⊢
          split at he
          next hu => simp only [hu]
          next updated s2 hu => simp at he
  · intro he
    unfold productCreate at he ⊢
    cases hp : parseCreate body with
    | none => simp [hp]
    | some p =>
      simp only [hp] at he ⊢
      split at he
      next ha => simp at he
      next s2 ha => simp at he
  · intro he
    unfold productCreate at he ⊢
    cases hp : parseCreate body with
    | none =>
      simp only [hp] at he
      exact absurd he (by simp)
    | some p =>
      simp only [hp] at he ⊢
      split at he
      next ha =>
        simp only [ha]
        exact ⟨rfl, rfl⟩
      next s2 ha => simp at he

/-- A raw list query with every parameter absent. -/
def sampleQuery : RawListQuery :=
  { category := none, sort := none, page := none, pageSize := none
    available := none, featured := none }

/-- A creation payload rejected by `createSchema` (empty name). -/
def badBody : RawCreate := { sampleBody with name := "" }

/-- Witness for C7: failed calls at concrete inputs leave the state unchanged,
except the capacity-failed create, which advances the identifier counter. -/
theorem claim7_witness :
    (productGet { id := -1 } emptyStore).2 = emptyStore ∧
      (productDelete { id := -1 } emptyStore).2 = emptyStore ∧
      (productUpdate 0 { id := -1 } sampleUpd emptyStore).2 = emptyStore ∧
      (productCreate 0 badBody emptyStore).2 = emptyStore ∧
      (productCreate 0 sampleBody fullStore).2.records = fullStore.records ∧
      (productCreate 0 sampleBody fullStore).2.currentId = fullStore.currentId + 1 := by
  have hful : MAX_RECORDS ≤ fullStore.records.length := by
    simp [fullStore, List.length_map, List.length_range]
  have hcap := productCreate_capacity 0 sampleBody fullStore (by decide) hful
  have h1 := claim7_atomicity 0 { id := -1 } badBody sampleUpd sampleQuery emptyStore
  have h2 := claim7_atomicity 0 { id := -1 } sampleBody sampleUpd sampleQuery fullStore
  exact ⟨h1.2.1 .validationError rfl,
         h1.2.2.1 .validationError rfl,
         h1.2.2.2.1 .validationError rfl,
         h1.2.2.2.2.1 rfl,
         h2.2.2.2.2.2 hcap.1⟩

/-! ### List pipeline lemmas -/

theorem ceilDiv_eq_natCeil (t p : Nat) (hp : 0 < p) :
    ceilDiv t p = Nat.ceil ((t : ℚ) / (p : ℚ)) := by
  rcases Nat.eq_zero_or_pos t with rfl | ht
  · simp [ceilDiv, Nat.div_eq_of_lt (show p - 1 < p by omega)]
  · have hq := Nat.div_add_mod (t + p - 1) p
    have hr := Nat.mod_lt (t + p - 1) hp
    have hc : (t + p - 1) / p * p = p * ((t + p - 1) / p) := Nat.mul_comm _ _
    have hn : ceilDiv t p ≠ 0 := by
      unfold ceilDiv
      intro h0
      rw [h0] at hq
      omega
    have hub : t ≤ ceilDiv t p * p := by
      unfold ceilDiv
      omega
    have hlb : (ceilDiv t p - 1) * p < t := by
      unfold ceilDiv
      rw [Nat.sub_mul, one_mul]
      omega
    rw [eq_comm, Nat.ceil_eq_iff hn]
    have hpq : (0 : ℚ) < (p : ℚ) := by exact_mod_cast hp
    constructor
    · rw [lt_div_iff₀ hpq]
      rw [← Nat.cast_mul]
      exact_mod_cast hlb
    · rw [div_le_iff₀ hpq]
      rw [← Nat.cast_mul]
      exact_mod_cast hub

theorem parsePageField_pos (o : Option ℚ) (n : Nat) (h : parsePageField o = some n) :
    1 ≤ n := by
  cases o with
  | none =>
    simp only [parsePageField] at h
    cases h
    omega
  | some p =>
    simp only [parsePageField] at h
    split at h
    · next hcond =>
      cases h
      have := hcond.2
      omega
    · exact absurd h (by simp)

theorem parsePageSizeField_mem (o : Option ℚ) (n : Nat)
    (h : parsePageSizeField o = some n) : n ∈ ([12, 24, 36, 48] : List Nat) := by
  cases o with
  | none =>
    simp only [parsePageSizeField] at h
    cases h
    decide
  | some z =>
    simp only [parsePageSizeField] at h
    split at h
    · next hcond =>
      cases h
      have hmem := hcond.2
      simp only [List.mem_cons, List.not_mem_nil, or_false] at hmem ⊢
      rcases hmem with h | h | h | h <;> rw [h] <;> decide
    · exact absurd h (by simp)

theorem parseListQuery_bounds (q : RawListQuery) (f : ListFilters)
    (h : parseListQuery q = some f) :
    1 ≤ f.page ∧ f.pageSize ∈ ([12, 24, 36, 48] : List Nat) := by
  unfold parseListQuery at h
  cases hc : parseCategoryField q.category with
  | none => rw [hc] at h; exact absurd h (by simp)
  | some cat =>
    rw [hc] at h
    cases hs : parseSortField q.sort with
    | none => rw [hs] at h; exact absurd h (by simp)
    | some srt =>
      rw [hs] at h
      cases hpg : parsePageField q.page with
      | none => rw [hpg] at h; exact absurd h (by simp)
      | some pg =>
        rw [hpg] at h
        cases hps : parsePageSizeField q.pageSize with
        | none => rw [hps] at h; exact absurd h (by simp)
        | some ps =>
          rw [hps] at h
          have hf : f.page = pg ∧ f.pageSize = ps := by
            cases h
            exact ⟨rfl, rfl⟩
          rw [hf.1, hf.2]
          exact ⟨parsePageField_pos q.page pg hpg, parsePageSizeField_mem q.pageSize ps hps⟩

/-- The filter-then-sort part of the list pipeline. -/
def listPipeline (f : ListFilters) (s : ProductStore) : List ProductRecord :=
  mergeSort (productLe (f.sort.getD .newest)) (applyFilters f s.getAll)

/-- Normal form of a successful `productList` call. -/
theorem productList_ok (q : RawListQuery) (s : ProductStore) (f : ListFilters)
    (hf : parseListQuery q = some f) :
    productList q s =
      (.ok
        { items :=
            (((listPipeline f s).drop ((jsOr f.page 1 - 1) * jsOr f.pageSize 12)).take
              (jsOr f.pageSize 12)).map toListItem
          pagination :=
            { page := jsOr f.page 1
              pageSize := jsOr f.pageSize 12
              total := (listPipeline f s).length
              totalPages := ceilDiv (listPipeline f s).length (jsOr f.pageSize 12)
              hasNext :=
                decide (jsOr f.page 1 <
                  ceilDiv (listPipeline f s).length (jsOr f.pageSize 12))
              hasPrevious := decide (1 < jsOr f.page 1) } }, s) := by
  unfold productList listPipeline
  rw [hf]

theorem jsOr_pos (x d : Nat) (h : 1 ≤ x) : jsOr x d = x := by
  unfold jsOr
  rw [if_neg]
  omega

/-- C1: For every repository state and validated list query (`page ≥ 1`,
`pageSize ∈ {12,24,36,48}` — both guaranteed by validation), the list
operation succeeds (no error, even when the offset is at or past the end) and
returns `items` of length `min(pageSize, total - (page-1)*pageSize)` (the
subtraction truncated at 0), with `total` the post-filter pre-pagination
count, `totalPages = ⌈total / pageSize⌉` (0 when `total` is 0), an empty page
when the offset reaches `total`, and
`pagination = {page, pageSize, total, totalPages, hasNext: page < totalPages,
hasPrevious: page > 1}`. -/
theorem claim1_pagination (q : RawListQuery) (s : ProductStore) (f : ListFilters)
    (hf : parseListQuery q = some f) :
    ∃ resp, (productList q s).1 = .ok resp ∧
      resp.pagination.page = f.page ∧
      resp.pagination.pageSize = f.pageSize ∧
      resp.pagination.total = (applyFilters f s.getAll).length ∧
      resp.items.length =
        min resp.pagination.pageSize
          (resp.pagination.total - (resp.pagination.page - 1) * resp.pagination.pageSize) ∧
      resp.items.length ≤ resp.pagination.pageSize ∧
      resp.pagination.totalPages =
        Nat.ceil ((resp.pagination.total : ℚ) / (resp.pagination.pageSize : ℚ)) ∧
      (resp.pagination.total = 0 → resp.pagination.totalPages = 0) ∧
      (resp.pagination.total ≤ (resp.pagination.page - 1) * resp.pagination.pageSize →
        resp.items = []) ∧
      resp.pagination.hasNext = decide (resp.pagination.page < resp.pagination.totalPages) ∧
      resp.pagination.hasPrevious = decide (1 < resp.pagination.page) ∧
      1 ≤ resp.pagination.page ∧ resp.pagination.pageSize ∈ ([12, 24, 36, 48] : List Nat) := by
  obtain ⟨hpg, hps⟩ := parseListQuery_bounds q f hf
  have hps0 : 0 < f.pageSize := by
    simp only [List.mem_cons, List.not_mem_nil, or_false] at hps
    rcases hps with h | h | h | h <;> omega
  have hjp : jsOr f.page 1 = f.page := jsOr_pos f.page 1 hpg
  have hjs : jsOr f.pageSize 12 = f.pageSize := jsOr_pos f.pageSize 12 (by omega)
  rw [productList_ok q s f hf]
  refine ⟨_, rfl, ?_⟩
  rw [hjp, hjs]
  refine ⟨rfl, rfl, length_mergeSort _ _, ?_, ?_, ?_, ?_, ?_, rfl, rfl, hpg, hps⟩
  · simp only [List.length_map, List.length_take, List.length_drop]
  · simp only [List.length_map, List.length_take, List.length_drop]
    exact min_le_left _ _
  · exact ceilDiv_eq_natCeil _ _ hps0
  · intro h0
    dsimp only at h0 ⊢
    rw [h0]
    unfold ceilDiv
    exact Nat.div_eq_of_lt (by omega)
  · intro hle
    dsimp only at hle ⊢
    have hnil : (listPipeline f s).drop ((f.page - 1) * f.pageSize) = [] :=
      List.drop_eq_nil_of_le hle
    rw [hnil]
    simp

/-- A non-featured record with a price. -/
def recA : ProductRecord :=
  { baseRec with id := 1, name := "Aparador", featured := false
                 price := some 5, dateCreated := 100, dateModified := 100 }

/-- A featured record with a null price. -/
def recB : ProductRecord :=
  { baseRec with id := 2, name := "Banco", featured := true
                 price := none, dateCreated := 50, dateModified := 50 }

/-- A non-featured record with a price. -/
def recC : ProductRecord :=
  { baseRec with id := 3, name := "Cama", featured := false
                 price := some 3, dateCreated := 200, dateModified := 200 }

/-- A three-record repository state. -/
def store3 : ProductStore := { records := [recA, recB, recC], currentId := 3 }

/-- Witness for C1 at a concrete query and store. -/
theorem claim1_witness :
    ∃ resp, (productList sampleQuery store3).1 = .ok resp ∧
      resp.items.length =
        min resp.pagination.pageSize
          (resp.pagination.total - (resp.pagination.page - 1) * resp.pagination.pageSize) ∧
      resp.pagination.total = 3 := by
  obtain ⟨resp, h1, _, _, h4, h5, _⟩ :=
    claim1_pagination sampleQuery store3
      { category := none, sort := none, page := 1, pageSize := 12
        available := none, featured := none } rfl
  refine ⟨resp, h1, h5, ?_⟩
  rw [h4]
  rfl

/-! ### Sort-order invariants of the comparator -/

/-- Rank for the featured-first primary key: featured records rank 0,
non-featured rank 1. -/
def rankFeatured (p : ProductRecord) : Nat := if p.featured then 0 else 1

theorem productLe_rankFeatured_true (so : SortOrder) (a b : ProductRecord)
    (h : rankFeatured a < rankFeatured b) : productLe so a b = true := by
  cases ha : a.featured <;> cases hb : b.featured <;>
    simp_all [rankFeatured, productLe, cmpProducts]

theorem productLe_rankFeatured_false (so : SortOrder) (a b : ProductRecord)
    (h : rankFeatured b < rankFeatured a) : productLe so a b = false := by
  cases ha : a.featured <;> cases hb : b.featured <;>
    simp_all [rankFeatured, productLe, cmpProducts]

/-- C2: in the items returned by a successful list call, every featured record
precedes every non-featured record (equivalently: once a non-featured item
appears, everything after it is non-featured), for every sort value. -/
theorem claim2_featured_first (q : RawListQuery) (s : ProductStore)
    (resp : ProductListResponse) (h : (productList q s).1 = .ok resp) :
    resp.items.Pairwise (fun a b => a.featured = false → b.featured = false) := by
  cases hq : parseListQuery q with
  | none =>
    unfold productList at h
    rw [hq] at h
    exact absurd h (by simp)
  | some f =>
    rw [productList_ok q s f hq] at h
    simp only [Except.ok.injEq] at h
    subst h
    rw [List.pairwise_map]
    have hsorted :
        (listPipeline f s).Pairwise (fun a b => rankFeatured a ≤ rankFeatured b) :=
      rank_mergeSort _ rankFeatured
        (productLe_rankFeatured_true (f.sort.getD .newest))
        (productLe_rankFeatured_false (f.sort.getD .newest))
        (applyFilters f s.getAll)
    have hsub :
        List.Sublist
          (((listPipeline f s).drop ((jsOr f.page 1 - 1) * jsOr f.pageSize 12)).take
            (jsOr f.pageSize 12)) (listPipeline f s) :=
      (List.take_sublist _ _).trans (List.drop_sublist _ _)
    have hpage := hsorted.sublist hsub
    refine hpage.imp ?_
    intro a b hr hfa
    simp only [toListItem] at hfa ⊢
    cases hb2 : b.featured with
    | false => rfl
    | true =>
      exfalso
      simp [rankFeatured, hfa, hb2] at hr

/-- Witness for C2 at a concrete query and store (a featured record and two
non-featured ones). -/
theorem claim2_witness :
    ∃ resp, (productList sampleQuery store3).1 = .ok resp ∧
      resp.items.Pairwise (fun a b => a.featured = false → b.featured = false) :=
  ⟨_, rfl, claim2_featured_first sampleQuery store3 _ rfl⟩

/-- Rank for the price sorts: featured-and-priced 0, featured-null 1,
non-featured-priced 2, non-featured-null 3. The comparator is monotone in this
rank for `price-asc` and `price-desc`. -/
def rankPriceNull (p : ProductRecord) : Nat :=
  (if p.featured then 0 else 2) + (if p.price = none then 1 else 0)

theorem productLe_rankPriceNull_true (so : SortOrder)
    (hso : so = .priceAsc ∨ so = .priceDesc) (a b : ProductRecord)
    (h : rankPriceNull a < rankPriceNull b) : productLe so a b = true := by
  rcases hso with rfl | rfl <;>
    cases ha : a.featured <;> cases hb : b.featured <;>
      cases hpa : a.price <;> cases hpb : b.price <;>
        simp_all [rankPriceNull, productLe, cmpProducts]

theorem productLe_rankPriceNull_false (so : SortOrder)
    (hso : so = .priceAsc ∨ so = .priceDesc) (a b : ProductRecord)
    (h : rankPriceNull b < rankPriceNull a) : productLe so a b = false := by
  rcases hso with rfl | rfl <;>
    cases ha : a.featured <;> cases hb : b.featured <;>
      cases hpa : a.price <;> cases hpb : b.price <;>
        simp_all [rankPriceNull, productLe, cmpProducts]

/-- `sampleQuery` with `sort=price-asc`. -/
def qPriceAsc : RawListQuery := { sampleQuery with sort := some "price-asc" }

/-- A store holding a non-featured priced record and a featured null-price
record. -/
def storeFeatNull : ProductStore := { records := [recA, recB], currentId := 3 }

/-- C3 (counterexample to the claim as stated): with `sort=price-asc`, the
featured record with a null price (id 2) is returned BEFORE the non-featured
record with price 5 (id 1), because the featured-first primary key overrides
the null-price policy; so a null-price record does not appear strictly after
every non-null-price record. -/
theorem claim3_counterexample :
    ((productList qPriceAsc storeFeatNull).1.toOption.map
      (fun r => r.items.map (fun i => (i.id, i.price, i.featured)))) =
        some [(2, none, true), (1, some 5, false)] ∧
      (∀ r ∈ (productList qPriceAsc storeFeatNull).1.toOption,
        ¬ r.items.Pairwise (fun a b => a.price = none → b.price = none)) := by
  constructor
  · decide
  · decide

/-- C3 (amended): with `sort=price-asc` or `sort=price-desc`, among returned
items of the SAME featured status, every null-price record appears strictly
after every non-null-price record (the featured-first primary key takes
precedence across the two featured classes). -/
theorem claim3_price_nulls_within_class (q : RawListQuery) (s : ProductStore)
    (f : ListFilters) (resp : ProductListResponse)
    (hq : parseListQuery q = some f)
    (hsort : f.sort = some .priceAsc ∨ f.sort = some .priceDesc)
    (h : (productList q s).1 = .ok resp) :
    resp.items.Pairwise
      (fun a b => a.featured = b.featured → a.price = none → b.price = none) := by
  have hso : f.sort.getD .newest = .priceAsc ∨ f.sort.getD .newest = .priceDesc := by
    rcases hsort with h' | h' <;> rw [h'] <;> simp
  rw [productList_ok q s f hq] at h
  simp only [Except.ok.injEq] at h
  subst h
  rw [List.pairwise_map]
  have hsorted :
      (listPipeline f s).Pairwise (fun a b => rankPriceNull a ≤ rankPriceNull b) :=
    rank_mergeSort _ rankPriceNull
      (productLe_rankPriceNull_true (f.sort.getD .newest) hso)
      (productLe_rankPriceNull_false (f.sort.getD .newest) hso)
      (applyFilters f s.getAll)
  have hsub :
      List.Sublist
        (((listPipeline f s).drop ((jsOr f.page 1 - 1) * jsOr f.pageSize 12)).take
          (jsOr f.pageSize 12)) (listPipeline f s) :=
    (List.take_sublist _ _).trans (List.drop_sublist _ _)
  have hpage := hsorted.sublist hsub
  refine hpage.imp ?_
  intro a b hr hfab hpa
  simp only [toListItem] at hfab hpa ⊢
  cases hb2 : b.price with
  | none => rfl
  | some y =>
    exfalso
    cases ha : a.featured <;> cases hb : b.featured <;>
      simp_all [rankPriceNull, ha, hb, hpa, hb2]

/-- Witness for the amended C3 at a concrete price-asc query. -/
theorem claim3_witness :
    ∃ resp, (productList qPriceAsc store3).1 = .ok resp ∧
      resp.items.Pairwise
        (fun a b => a.featured = b.featured → a.price = none → b.price = none) :=
  ⟨_, rfl, claim3_price_nulls_within_class qPriceAsc store3 _ _ rfl (Or.inl rfl) rfl⟩

/-! ### isNew recomputation -/

theorem store_update_of_getById (s : ProductStore) (id : Nat) (d : UpdateFields)
    (existing : ProductRecord) (hex : s.getById id = some existing) :
    s.update id d =
      some (applyUpdate existing d,
        { s with records := mapSet s.records (applyUpdate existing d) }) := by
  unfold ProductStore.update
  rw [hex]

/-- A repository holding one record created at time 0. -/
def storeOld : ProductStore := { records := [baseRec], currentId := 1 }

/-- 30.5 days (in ms) after time 0. -/
def tMid : Int := 30 * msPerDay + 43200000

/-- C4 (counterexample to the claim as stated): updating a record created
30.5 days ago succeeds with `isNew = true`, although `(now - dateCreated) ≤ 30
days` is false — the code compares `Math.floor(days) ≤ 30`, which holds up to
(but excluding) 31 days. -/
theorem claim4_counterexample :
    ((productUpdate tMid { id := 1 } sampleUpd storeOld).1.toOption.map
      (fun e => (e.isNew, e.dateCreated))) = some (true, 0) ∧
      ¬ (tMid - 0 ≤ 30 * msPerDay) := by
  constructor
  · decide
  · decide

/-- C4 (amended): a created product always has `isNew = true`; a successful
update recomputes `isNew` from the existing record's `dateCreated` as
`⌊(now - dateCreated) / 1 day⌋ ≤ 30` (equivalently `now - dateCreated <
31 days`), so a record created 31 or more days before the update has
`isNew = false` afterward; the payload carries no `isNew` field, and
`dateCreated` itself is preserved. -/
theorem claim4_isNew_computed (now : Int) (params : RawParams) (cbody : RawCreate)
    (ubody : RawUpdate) (s : ProductStore) :
    (∀ e, (productCreate now cbody s).1 = .ok e → e.isNew = true) ∧
      (∀ id existing e, parseParams params = some id → s.getById id = some existing →
        (productUpdate now params ubody s).1 = .ok e →
        e.isNew = decide ((now - existing.dateCreated).fdiv msPerDay ≤ 30) ∧
          (31 * msPerDay ≤ now - existing.dateCreated → e.isNew = false) ∧
          e.dateCreated = existing.dateCreated) := by
  constructor
  · intro e he
    unfold productCreate at he
    cases hp : parseCreate cbody with
    | none => simp only [hp] at he; exact absurd he (by simp)
    | some p =>
      simp only [hp] at he
      split at he
      next ha => exact absurd he (by simp)
      next s2 ha =>
        simp only [Except.ok.injEq] at he
        subst he
        rfl
  · intro id existing e hid hex he
    unfold productUpdate at he
    simp only [hid] at he
    cases hpu : parseUpdate ubody with
    | none => simp only [hpu] at he; exact absurd he (by simp)
    | some u =>
      simp only [hpu, hex, store_update_of_getById s id _ existing hex,
        Except.ok.injEq] at he
      subst he
      refine ⟨rfl, ?_, rfl⟩
      intro h31
      have hm : (0 : Int) ≤ msPerDay := by decide
      have hd : (31 : Int) ≤ (now - existing.dateCreated).fdiv msPerDay := by
        rw [Int.fdiv_eq_ediv _ hm]
        rw [Int.le_ediv_iff_mul_le (by decide : (0 : Int) < msPerDay)]
        linarith
      simp only [applyUpdate]
      rw [decide_eq_false]
      omega

/-- Witness for the amended C4: a fresh create has `isNew = true`; updating a
record created 32 days earlier flips `isNew` to `false`. -/
theorem claim4_witness :
    ∃ e1 e2, (productCreate 0 sampleBody emptyStore).1 = .ok e1 ∧ e1.isNew = true ∧
      (productUpdate (32 * msPerDay) { id := 1 } sampleUpd storeOld).1 = .ok e2 ∧
      e2.isNew = false ∧ 31 * msPerDay ≤ 32 * msPerDay - baseRec.dateCreated := by
  have hc := (claim4_isNew_computed 0 { id := 1 } sampleBody sampleUpd emptyStore).1
  have hu := (claim4_isNew_computed (32 * msPerDay) { id := 1 } sampleBody sampleUpd storeOld).2
  refine ⟨_, _, rfl, hc _ rfl, rfl, ?_, by decide⟩
  have h2 := hu 1 baseRec _ rfl rfl rfl
  exact h2.2.1 (by decide)

/-! ### Update images fallback -/

/-- A repository holding one record that has a non-empty image list. -/
def storeWithImages : ProductStore :=
  { records := [{ baseRec with images := ["https://example.com/a.jpg"] }]
    currentId := 1 }

/-- C5: updating with a payload that OMITS `images` does NOT preserve the
record's prior images — it clears them to `[]`. `updateSchema` declares
`images: z.array(...).optional().default([])`, so an omitted key parses to
`[]`, and in `updateData.images || existing.images` the empty array is truthy,
so the fallback to `existing.images` never fires. The prior images here are
`["https://example.com/a.jpg"]`; after the update they are `[]`. -/
theorem claim5_images_cleared_on_omission :
    sampleUpd.images = none ∧
      (storeWithImages.getById 1).map (fun e => e.images) =
        some ["https://example.com/a.jpg"] ∧
      ((productUpdate 0 { id := 1 } sampleUpd storeWithImages).1.toOption.map
        (fun e => e.images)) = some [] := by
  refine ⟨rfl, by decide, by decide⟩

/-! ### List-query validation -/

theorem parseListQuery_eq_none (q : RawListQuery)
    (h : parseCategoryField q.category = none ∨ parseSortField q.sort = none ∨
      parsePageField q.page = none ∨ parsePageSizeField q.pageSize = none) :
    parseListQuery q = none := by
  unfold parseListQuery
  rcases h with h | h | h | h
  · simp [h]
  · cases hc : parseCategoryField q.category <;> simp [hc, h]
  · cases hc : parseCategoryField q.category <;> cases hs : parseSortField q.sort <;>
      simp [hc, hs, h]
  · cases hc : parseCategoryField q.category <;> cases hs : parseSortField q.sort <;>
      cases hp : parsePageField q.page <;> simp [hc, hs, hp, h]

theorem productList_validation_err (q : RawListQuery) (s : ProductStore)
    (h : parseListQuery q = none) :
    (productList q s).1 = .error .validationError := by
  unfold productList
  rw [h]

/-- C8: the list operation fails with VALIDATION_ERROR (returning no result at
all, hence no partial results) whenever the query carries a category outside
the six enumerated values, a pageSize that is not an integer in {12,24,36,48},
a sort outside the five allowed values, or a page that is not an integer ≥ 1;
when page and pageSize are absent the defaults 1 and 12 apply and the
operation does not fail on their account. -/
theorem claim8_query_validation (q : RawListQuery) (s : ProductStore) :
    (∀ c, q.category = some c → c ∉ PRODUCT_CATEGORIES →
      (productList q s).1 = .error .validationError) ∧
    (∀ z, q.pageSize = some z → ¬ (z.den = 1 ∧ z.num ∈ ([12, 24, 36, 48] : List Int)) →
      (productList q s).1 = .error .validationError) ∧
    (∀ t, q.sort = some t →
      t ∉ (["newest", "name-asc", "name-desc", "price-asc", "price-desc"] : List String) →
      (productList q s).1 = .error .validationError) ∧
    (∀ p, q.page = some p → ¬ (p.den = 1 ∧ 0 < p.num) →
      (productList q s).1 = .error .validationError) ∧
    (q.page = none → q.pageSize = none → q.category = none → q.sort = none →
      ∃ resp, (productList q s).1 = .ok resp ∧
        resp.pagination.page = 1 ∧ resp.pagination.pageSize = 12) := by
  refine ⟨?_, ?_, ?_, ?_, ?_⟩
  · intro c hc hmem
    refine productList_validation_err q s (parseListQuery_eq_none q (Or.inl ?_))
    rw [hc]
    simp [parseCategoryField, hmem]
  · intro z hz hbad
    refine productList_validation_err q s
      (parseListQuery_eq_none q (Or.inr (Or.inr (Or.inr ?_))))
    rw [hz]
    simp only [parsePageSizeField]
    rw [if_neg hbad]
  · intro t ht hmem
    refine productList_validation_err q s (parseListQuery_eq_none q (Or.inr (Or.inl ?_)))
    rw [ht]
    simp only [List.mem_cons, List.not_mem_nil, or_false, not_or] at hmem
    obtain ⟨h1, h2, h3, h4, h5⟩ := hmem
    simp [parseSortField, h1, h2, h3, h4, h5]
  · intro p hp hbad
    refine productList_validation_err q s
      (parseListQuery_eq_none q (Or.inr (Or.inr (Or.inl ?_))))
    rw [hp]
    simp only [parsePageField]
    rw [if_neg hbad]
  · intro hpg hps hc hs
    have hq : parseListQuery q = some
        { category := none, sort := none, page := 1, pageSize := 12
          available := q.available.map (fun v => v == "true")
          featured := q.featured.map (fun v => v == "true") } := by
      unfold parseListQuery
      rw [hc, hs, hpg, hps]
      rfl
    exact ⟨_, by rw [productList_ok q s _ hq], rfl, rfl⟩

/-- `category: "invalid-value"`. -/
def qBadCategory : RawListQuery := { sampleQuery with category := some "invalid-value" }

/-- `pageSize: 20` (not in {12,24,36,48}). -/
def qBadPageSize : RawListQuery := { sampleQuery with pageSize := some 20 }

/-- Witness for C8: the two scenario queries fail with VALIDATION_ERROR; the
all-absent query succeeds with the defaults page=1, pageSize=12. -/
theorem claim8_witness :
    (productList qBadCategory emptyStore).1 = .error .validationError ∧
      (productList qBadPageSize emptyStore).1 = .error .validationError ∧
      (∃ resp, (productList sampleQuery emptyStore).1 = .ok resp ∧
        resp.pagination.page = 1 ∧ resp.pagination.pageSize = 12) :=
  ⟨(claim8_query_validation qBadCategory emptyStore).1 "invalid-value" rfl (by decide),
   (claim8_query_validation qBadPageSize emptyStore).2.1 20 rfl (by decide),
   (claim8_query_validation sampleQuery emptyStore).2.2.2.2 rfl rfl rfl rfl⟩

/-! ### Create/get round trip -/

theorem getById_append_fresh (rs : List ProductRecord) (r : ProductRecord) (k : Nat)
    (hk : r.id = k) (hfresh : ∀ x ∈ rs, x.id ≠ k) :
    (rs ++ [r]).find? (fun x => x.id == k) = some r := by
  induction rs with
  | nil => simp [List.find?, hk]
  | cons a rs ih =>
    have ha : (a.id == k) = false := by
      simpa using hfresh a (List.mem_cons_self a rs)
    simp only [List.cons_append, List.find?, ha]
    exact ih (fun x hx => hfresh x (List.mem_cons_of_mem _ hx))

theorem mapSet_fresh (rs : List ProductRecord) (r : ProductRecord)
    (hfresh : ∀ x ∈ rs, x.id ≠ r.id) : mapSet rs r = rs ++ [r] := by
  unfold mapSet
  rw [if_neg]
  intro hany
  rw [List.any_eq_true] at hany
  obtain ⟨x, hx, he⟩ := hany
  exact hfresh x hx (by simpa using he)

theorem parseParams_natCast (n : Nat) (h : 1 ≤ n) :
    parseParams { id := (n : ℚ) } = some n := by
  unfold parseParams
  rw [if_pos]
  · simp
  · constructor
    · simp [Rat.den_natCast]
    · simp
      omega

/-- C9: for every valid creation payload and well-formed store (every stored
id is at most the id counter — an invariant of all reachable states), create
followed by get of the returned id yields exactly the created entity, with the
full entity shape (productGet returns the whole record, no projection). -/
theorem claim9_create_get_roundtrip (now : Int) (body : RawCreate) (s : ProductStore)
    (e : ProductRecord) (hwf : ∀ r ∈ s.records, r.id ≤ s.currentId)
    (h : (productCreate now body s).1 = .ok e) :
    (productGet { id := (e.id : ℚ) } (productCreate now body s).2).1 = .ok e := by
  unfold productCreate at h ⊢
  cases hp : parseCreate body with
  | none => simp only [hp] at h; exact absurd h (by simp)
  | some p =>
    simp only [hp] at h ⊢
    by_cases hcap : MAX_RECORDS ≤ (s.getNextId).2.records.length
    · simp only [ProductStore.add, if_pos hcap] at h
      exact absurd h (by simp)
    · simp only [ProductStore.add, if_neg hcap] at h ⊢
      simp only [Except.ok.injEq] at h
      subst h
      unfold productGet
      dsimp only [ProductStore.getNextId]
      rw [parseParams_natCast (s.currentId + 1) (by omega)]
      simp only [ProductStore.getById, ProductStore.getNextId]
      have hfr : ∀ x ∈ s.records, x.id ≠ s.currentId + 1 := by
        intro x hx
        have := hwf x hx
        omega
      rw [mapSet_fresh s.records _ hfr]
      rw [getById_append_fresh s.records _ (s.currentId + 1) rfl hfr]

/-- Witness for C9: create from the empty store, then get id 1. -/
theorem claim9_witness :
    ∃ e, (productCreate 0 sampleBody emptyStore).1 = .ok e ∧
      (productGet { id := (e.id : ℚ) } (productCreate 0 sampleBody emptyStore).2).1 =
        .ok e := by
  refine ⟨_, rfl, claim9_create_get_roundtrip 0 sampleBody emptyStore _ ?_ rfl⟩
  intro r hr
  simp [emptyStore] at hr
